import Mathlib

/-!
# Verification of the Barzel analytics core

Shallow embedding, in Lean 4, of the analytics core of the
`barzel-analytics-dubai-v2` repository:

* `src/processing/facts.py`          (`add_facts`, the facts normalizer)
* `src/analytics/kpi_engine.py`      (`weighted_median`, `kpi_pricing`, `kpi_liquidity`, ...)
* `src/analytics/aggregations.py`    (`group_stats`)
* `src/analytics/market_views.py`    (`snapshot`)
* `src/analytics/advanced_kpis.py`   (advanced KPI scalars used by `snapshot`)
* `src/analytics/scoring_pdf_only.py` (`percentile_score`, `barzel_score_pdf_only`,
  `barzel_score_details`)

Modelling conventions, used throughout and noted again at each definition:

* pandas float cells are modelled as `Option ℚ` (`none` = NaN/NA/null); IEEE floats
  are modelled by exact rationals.  The one place where a genuine IEEE special value
  (`inf` from division by zero) is produced and observed — the trend momentum in the
  scoring module — is modelled by the dedicated type `FV` with the IEEE comparison
  semantics the code relies on.
* `pd.to_numeric(col, errors="coerce")` and `pd.to_datetime(col, errors="coerce")`
  are modelled by taking cells to be the already-coerced `Option` values
  (unparsable raw cells are `none`); timestamps are whole numbers (days, or month
  indices where the code buckets by calendar month), districts are natural numbers.
* sample standard deviations (`Series.std()`, ddof = 1) appear in the code either
  (a) only on the two sides of an order comparison inside `percentile_score`, or
  (b) as an output value no claim refers to.  Since `Real.sqrt` is strictly
  monotone on nonnegatives, comparisons of standard deviations coincide with
  comparisons of the underlying sample variances; the embedding therefore carries
  the exact rational sample variance wherever the code carries the standard
  deviation, and this is flagged at each such definition.
* Series produced from a column of a DataFrame are lists in row order; pandas
  groupby iterates groups in sorted key order, modelled by sorting the
  deduplicated keys.
-/

-- Rational arithmetic is `@[irreducible]` in the library; unseal it so that the
-- concrete evaluations below (`decide`/`rfl` on closed inputs) can reduce.
unseal Rat.add Rat.mul Rat.inv Rat.sub

namespace Barzel

/-- Sort a list of rationals ascending (models `np.sort` / `sort_index()` /
sorted quantile extraction).  `List.insertionSort` is used everywhere because it
is structurally recursive, hence reduces inside `decide`/`rfl` evaluation. -/
def sortQ (l : List ℚ) : List ℚ := l.insertionSort (· ≤ ·)

/-- `Series.median()`: drop nulls, sort; middle element for odd length, mean of
the two middle elements for even length; NaN (`none`) for an all-null/empty
series. -/
def median (l : List (Option ℚ)) : Option ℚ :=
  let xs := sortQ (l.filterMap id)
  if xs.length = 0 then none
  else if xs.length % 2 = 1 then some (xs.getD (xs.length / 2) 0)
  else some ((xs.getD (xs.length / 2 - 1) 0 + xs.getD (xs.length / 2) 0) / 2)

/-- `Series.quantile(q)` with pandas' default linear interpolation:
with `n` non-null values sorted ascending, `h = q·(n−1)`, `j = ⌊h⌋`,
result `= (1−γ)·x_j + γ·x_{j+1}` where `γ = h − j`; NaN for an empty series. -/
def quantile (l : List (Option ℚ)) (q : ℚ) : Option ℚ :=
  let xs := sortQ (l.filterMap id)
  if xs.length = 0 then none
  else
    let h : ℚ := q * ((xs.length : ℚ) - 1)
    let j : ℕ := (max 0 ⌊h⌋).toNat
    let g : ℚ := h - (j : ℚ)
    some ((1 - g) * xs.getD j 0 + g * xs.getD (j + 1) (xs.getD j 0))

/-- Sample variance (`Series.var()`, ddof = 1): NaN unless at least two non-null
values.  `Series.std()` is its square root; the embedding carries the variance
(see the module comment: all uses are order comparisons or unobserved outputs,
and `sqrt` is strictly monotone on the nonnegatives). -/
def svar (l : List (Option ℚ)) : Option ℚ :=
  let xs := l.filterMap id
  if xs.length < 2 then none
  else
    let n : ℚ := xs.length
    let m : ℚ := xs.sum / n
    some ((xs.map (fun x => (x - m) ^ 2)).sum / (n - 1))

/-- Mean of the non-null entries (`np.nanmean`); NaN when all entries are NaN. -/
def nanmean (l : List (Option ℚ)) : Option ℚ :=
  let xs := l.filterMap id
  if xs.length = 0 then none else some (xs.sum / (xs.length : ℚ))

/-- Sum of the non-null entries (`np.nansum`); `0` when all entries are NaN. -/
def nansum (l : List (Option ℚ)) : ℚ := (l.filterMap id).sum

/-- `_clip01` from `scoring_pdf_only.py` on a non-NaN value (the NaN branch is
handled by the surrounding `Option` layer). -/
def clip01 (x : ℚ) : ℚ := max 0 (min 1 x)

/-- An IEEE-754 float as observed by the scoring code: a finite value, one of
the infinities (produced by `x / 0.0` on numpy floats), or NaN. -/
inductive FV where
  | nan : FV
  | inf : FV
  | ninf : FV
  | num : ℚ → FV
deriving DecidableEq

/-- View a nullable rational as a float (`none` is NaN). -/
def FV.ofOpt : Option ℚ → FV
  | none => FV.nan
  | some q => FV.num q

/-- IEEE comparison `a <= v` for a finite `a` (used by `(s <= value).mean()` in
`percentile_score`): any comparison with NaN is false; everything is `<= inf`;
nothing finite is `<= -inf`. -/
def fleF (a : ℚ) (v : FV) : Bool :=
  match v with
  | FV.nan => false
  | FV.inf => true
  | FV.ninf => false
  | FV.num q => a ≤ q

/-- numpy float division `a / b`: ordinary quotient for `b ≠ 0`; for `b = 0` it
yields `inf`/`-inf`/`nan` according to the sign of `a` (numpy emits a warning,
not an exception). -/
def fdivF (a b : ℚ) : FV :=
  if b ≠ 0 then FV.num (a / b)
  else if 0 < a then FV.inf
  else if a < 0 then FV.ninf
  else FV.nan

/-- `percentile_score(series, value, higher_is_better)` from
`scoring_pdf_only.py`: coerce and drop nulls; NaN when fewer than 10 reference
values remain or the probe value is NaN; otherwise the fraction of reference
values `<=` the probe (IEEE comparison), inverted for lower-is-better, clipped
to [0,1]. -/
def percentile_score (series : List (Option ℚ)) (value : FV) (hib : Bool) : Option ℚ :=
  let s := series.filterMap id
  if s.length < 10 ∨ value = FV.nan then none
  else
    let pct : ℚ := (s.countP (fun x => fleF x value)) / (s.length : ℚ)
    some (clip01 (if hib then pct else 1 - pct))

/-! ## Facts normalizer (`src/processing/facts.py`, `add_facts`)

The raw table is modelled row-wise.  Numeric cells hold the value of
`pd.to_numeric(..., errors="coerce")` (so unparsable raw text is already
`none`); `first_seen`/`last_seen` hold the parsed timestamp as a whole number
of days (`pd.to_datetime(..., errors="coerce", utc=True)`, unparsable `none`);
`has_terrace` holds the raw cell before `astype(str)` normalization.

The source tests column availability with `"c" in out.columns and
out["c"].notna().any()`, i.e. a present-but-all-null column behaves like an
absent one in every fallback chain.  The only construct for which bare presence
(as opposed to presence of a value) is observable is the `has_terrace` column
(`if "has_terrace" in out.columns`), so the model keeps one explicit presence
flag for it and models all other columns as always present, possibly all-null.
Two corner paths of the source are outside the model because they raise rather
than return (the claims under verification only concern returned tables):
applying a guardrail `.loc` mask to a column that was set to the scalar
`pd.NA` produces a non-boolean mask (object dtype) and fails, and
`pd.NaT.fillna` fails when the `last_seen` column is absent while `first_seen`
is present; the model treats both like the corresponding all-null float
column, which is what the source computes on every input on which it returns. -/

/-- One row of the raw listings table, after numeric/datetime coercion. -/
structure RawRow where
  weighted_price_per_sqm_aed : Option ℚ
  price_per_sqm_aed : Option ℚ
  sale_price_aed : Option ℚ
  price : Option ℚ
  size_sqm : Option ℚ
  service_charge_aed_per_sqm_year : Option ℚ
  gross_yield_pct : Option ℚ
  net_yield_est_pct : Option ℚ
  net_yield_adj_vacancy_pct : Option ℚ
  days_on_market : Option ℚ
  vacancy_days_est : Option ℚ
  first_seen : Option ℤ
  last_seen : Option ℤ
  has_terrace : Option String
  terrace_size_sqm : Option ℚ
deriving DecidableEq

/-- An all-null raw row (convenient base for concrete tables). -/
def RawRow.empty : RawRow :=
  ⟨none, none, none, none, none, none, none, none, none, none, none, none, none, none, none⟩

/-- The raw table: rows plus the presence flag for the `has_terrace` column
(the one column whose bare presence the source can observe). -/
structure RawTable where
  rows : List RawRow
  has_terrace_col : Bool
deriving DecidableEq

/-- The column-level tests `"c" in out.columns and out["c"].notna().any()`
made by `add_facts`, evaluated once per table. -/
structure Flags where
  wppa : Bool
  ppa : Bool
  sale : Bool
  price : Bool
  dom : Bool
  adj : Bool
  est : Bool
  gross : Bool
  svc : Bool
  vac : Bool
deriving DecidableEq

/-- Compute the availability flags of a raw table. -/
def mkFlags (t : RawTable) : Flags where
  wppa := t.rows.any (fun r => r.weighted_price_per_sqm_aed.isSome)
  ppa := t.rows.any (fun r => r.price_per_sqm_aed.isSome)
  sale := t.rows.any (fun r => r.sale_price_aed.isSome)
  price := t.rows.any (fun r => r.price.isSome)
  dom := t.rows.any (fun r => r.days_on_market.isSome)
  adj := t.rows.any (fun r => r.net_yield_adj_vacancy_pct.isSome)
  est := t.rows.any (fun r => r.net_yield_est_pct.isSome)
  gross := t.rows.any (fun r => r.gross_yield_pct.isSome)
  svc := t.rows.any (fun r => r.service_charge_aed_per_sqm_year.isSome)
  vac := t.rows.any (fun r => r.vacancy_days_est.isSome)

/-- One row of the fact table: the canonical columns `add_facts` adds.  (The
source returns the input columns as well, unchanged; the model keeps just the
canonical ones, which is what every claim is about.) -/
structure FactRow where
  price_per_sqm : Option ℚ
  days_on_market : Option ℚ
  net_yield : Option ℚ
  gross_yield : Option ℚ
  service_charge_psm_year : Option ℚ
  vacancy_days : Option ℚ
  has_terrace : Option Bool
  terrace_size_sqm : Option ℚ
deriving DecidableEq

/-- Sanity-bound guardrail: `out.loc[(col < lo) | (col > hi), col] = pd.NA`.
A null stays null (a NaN compares false on both sides); an out-of-bounds value
becomes null; an in-bounds value is kept unchanged — never clamped. -/
def bnd (lo hi : ℚ) : Option ℚ → Option ℚ
  | none => none
  | some x => if x < lo ∨ hi < x then none else some x

/-- The `has_terrace` cell normalization
`out["has_terrace"].astype(str).str.lower().isin(["1", "true", "yes"])`:
`astype(str)` renders a null cell as the literal text `"nan"`/`"none"`, which
is not in the accepted set, so a null raw cell maps to `false` (not null). -/
def terraceNorm : Option String → Bool
  | none => false
  | some s => s.toLower ∈ ["1", "true", "yes"]

/-- `price_per_sqm` before its guardrail: the fallback chain
weighted price/area → price/area → (sale price | price) / size, with a
zero size nulled (`replace({0: pd.NA})`) before the division. -/
def pricePre (f : Flags) (r : RawRow) : Option ℚ :=
  if f.wppa then r.weighted_price_per_sqm_aed
  else if f.ppa then r.price_per_sqm_aed
  else
    let pc : Option ℚ :=
      if f.sale then r.sale_price_aed else if f.price then r.price else none
    if f.sale ∨ f.price then
      match pc, r.size_sqm with
      | some p, some s => if s = 0 then none else some (p / s)
      | _, _ => none
    else none

/-- `days_on_market` before its guardrail: the precomputed column when it has
any value, else `(last_seen.fillna(now) − first_seen).dt.days`. -/
def domPre (f : Flags) (now : ℤ) (r : RawRow) : Option ℚ :=
  if f.dom then r.days_on_market
  else
    match r.first_seen with
    | none => none
    | some fs => some (((r.last_seen.getD now) - fs : ℤ) : ℚ)

/-- `net_yield` before its guardrail: vacancy-adjusted estimate preferred over
the plain estimate. -/
def netPre (f : Flags) (r : RawRow) : Option ℚ :=
  if f.adj then r.net_yield_adj_vacancy_pct
  else if f.est then r.net_yield_est_pct
  else none

/-- One fact row, from one raw row and the table-level flags. -/
def factRow (f : Flags) (tc : Bool) (now : ℤ) (r : RawRow) : FactRow where
  price_per_sqm := bnd 2000 400000 (pricePre f r)
  days_on_market := bnd 0 3650 (domPre f now r)
  net_yield := bnd (-5) 40 (netPre f r)
  gross_yield := bnd (-5) 40 (if f.gross then r.gross_yield_pct else none)
  service_charge_psm_year :=
    bnd 0 100000 (if f.svc then r.service_charge_aed_per_sqm_year else none)
  vacancy_days := bnd 0 3650 (if f.vac then r.vacancy_days_est else none)
  has_terrace := if tc then some (terraceNorm r.has_terrace) else none
  terrace_size_sqm := r.terrace_size_sqm

/-- `add_facts(df)` from `src/processing/facts.py`.  `now` is the value of
`pd.Timestamp.utcnow()` read during the run (in days, like the timestamps);
making it an explicit argument is the standard embedding of the clock read. -/
def add_facts (t : RawTable) (now : ℤ) : List FactRow :=
  t.rows.map (factRow (mkFlags t) t.has_terrace_col now)

/-! ## KPI engine and market view
(`src/analytics/kpi_engine.py`, `src/analytics/advanced_kpis.py`,
`src/analytics/market_views.py`)

These functions read columns with `df.get(col)`, which returns `None` for an
absent column.  `pd.to_numeric(None, errors="coerce")` then yields the *scalar*
`nan`, and the immediately following Series-only attribute access
(`.notna()` / `.dropna()` / `len(...)`) raises `AttributeError: 'float' object
has no attribute ...`.  The embedding models a column as
`Option (List (Option ℚ))` (`none` = column absent) and each KPI block as an
`Except String` computation whose `error` case is exactly that raised
`AttributeError`; the one block that guards against absence (`kpi_terrace`'s
rate, via `if ht is not None` and `try/except`) is modelled accordingly. -/

/-- A view handed to `snapshot`: the canonical fact columns, each possibly
absent, plus `len(df)` (`nrows`).  (Fact tables produced by `add_facts` always
carry every canonical column; `snapshot` itself is defined on any DataFrame.) -/
structure SnapDF where
  price_per_sqm : Option (List (Option ℚ))
  days_on_market : Option (List (Option ℚ))
  net_yield : Option (List (Option ℚ))
  gross_yield : Option (List (Option ℚ))
  vacancy_days : Option (List (Option ℚ))
  service_charge_psm_year : Option (List (Option ℚ))
  has_terrace : Option (List (Option Bool))
  terrace_size_sqm : Option (List (Option ℚ))
  nrows : ℕ

/-- The elementwise comparison `v <= 30` used by the fast-sale ratios: a null
(NaN) compares false, so a null row counts as not-fast. -/
def leOpt (o : Option ℚ) (c : ℚ) : Bool :=
  match o with
  | none => false
  | some v => v ≤ c

/-- Sample covariance (ddof = 1) of a list of pairs. -/
def scov (ps : List (ℚ × ℚ)) : ℚ :=
  if ps.length < 2 then 0
  else
    let n : ℚ := ps.length
    let mp : ℚ := (ps.map Prod.fst).sum / n
    let md : ℚ := (ps.map Prod.snd).sum / n
    (ps.map (fun x => (x.1 - mp) * (x.2 - md))).sum / (n - 1)

/-- Pearson correlation `clean["p"].corr(clean["dom"])`, NaN when either
marginal variance is zero.  The embedding carries `cov / (var·var)` instead of
`cov / (std·std)` — the same value scaled by the positive factor `std·std` —
so nullity and sign are exact and no square root is needed (no claim reads the
magnitude). -/
def pearson (ps : List (ℚ × ℚ)) : Option ℚ :=
  let vp := svar (ps.map (fun x => some x.1))
  let vd := svar (ps.map (fun x => some x.2))
  match vp, vd with
  | some a, some b => if a = 0 ∨ b = 0 then none else some (scov ps / (a * b))
  | _, _ => none

/-- Result bundle of `kpi_pricing`. -/
structure PricingK where
  median_price_sqm : Option ℚ
  p25_price_sqm : Option ℚ
  p75_price_sqm : Option ℚ
  /-- `price_dispersion_std`: the source stores `s.std()`; the model stores the
  sample variance (its square). -/
  price_dispersion : Option ℚ
deriving DecidableEq

/-- `kpi_pricing(df)`: AttributeError when the price column is absent
(scalar-nan path), else the quantile/dispersion bundle, each entry null on an
all-null column. -/
def kpi_pricing (df : SnapDF) : Except String PricingK :=
  match df.price_per_sqm with
  | none => Except.error "AttributeError"
  | some s =>
      Except.ok
        { median_price_sqm := median s
          p25_price_sqm := quantile s (1/4)
          p75_price_sqm := quantile s (3/4)
          price_dispersion := svar s }

/-- Result bundle of `kpi_liquidity`. -/
structure LiquidityK where
  median_dom : Option ℚ
  p25_dom : Option ℚ
  p75_dom : Option ℚ
  fast_sale_ratio_30d : Option ℚ
  fast_sale_ratio_60d : Option ℚ
  /-- Pearson correlation price↔DOM; see `pearson` for the scaling used. -/
  overpricing_penalty_corr : Option ℚ
deriving DecidableEq

/-- `kpi_liquidity(df)`: AttributeError when the DOM column is absent; the
fast-sale ratios divide the count of non-null values `<= 30`/`<= 60` by the
*full* row count (nulls count as not-fast), and are NaN only on a zero-row
series; the correlation needs >= 10 paired non-null observations (an absent
price column broadcasts scalar nan into the pair frame, so the pair set is
empty and the correlation is null, without an error). -/
def kpi_liquidity (df : SnapDF) : Except String LiquidityK :=
  match df.days_on_market with
  | none => Except.error "AttributeError"
  | some dom =>
      let pairs : List (ℚ × ℚ) :=
        match df.price_per_sqm with
        | none => []
        | some p =>
            (p.zip dom).filterMap
              (fun x => match x.1, x.2 with
                | some a, some b => some (a, b)
                | _, _ => none)
      Except.ok
        { median_dom := median dom
          p25_dom := quantile dom (1/4)
          p75_dom := quantile dom (3/4)
          fast_sale_ratio_30d :=
            if dom.length = 0 then none
            else some ((dom.countP (fun o => leOpt o 30) : ℚ) / (dom.length : ℚ))
          fast_sale_ratio_60d :=
            if dom.length = 0 then none
            else some ((dom.countP (fun o => leOpt o 60) : ℚ) / (dom.length : ℚ))
          overpricing_penalty_corr :=
            if pairs.length < 10 then none else pearson pairs }

/-- Result bundle of `kpi_yield`. -/
structure YieldK where
  gross_yield_median : Option ℚ
  net_yield_median : Option ℚ
  /-- `net_yield_dispersion_std`: variance carried for the std (see module
  comment). -/
  net_yield_dispersion : Option ℚ
  vacancy_days_median : Option ℚ
  vacancy_drag_median : Option ℚ
deriving DecidableEq

/-- Null-propagating cell subtraction (`gross - net` elementwise). -/
def subOpt : Option ℚ → Option ℚ → Option ℚ
  | some a, some b => some (a - b)
  | _, _ => none

/-- `kpi_yield(df)`: AttributeError when any of the gross/net/vacancy columns
is absent (each is touched through `.notna()`/`.std()` in the dict literal). -/
def kpi_yield (df : SnapDF) : Except String YieldK :=
  match df.gross_yield, df.net_yield, df.vacancy_days with
  | some g, some n, some v =>
      Except.ok
        { gross_yield_median := median g
          net_yield_median := median n
          net_yield_dispersion := svar n
          vacancy_days_median := median v
          vacancy_drag_median :=
            if g.any (·.isSome) ∧ n.any (·.isSome)
            then median (List.zipWith subOpt g n) else none }
  | _, _, _ => Except.error "AttributeError"

/-- Result bundle of `kpi_costs`. -/
structure CostsK where
  service_charge_median : Option ℚ
  /-- dispersion std, carried as variance. -/
  service_charge_dispersion : Option ℚ
deriving DecidableEq

/-- `kpi_costs(df)`: AttributeError when the service-charge column is absent. -/
def kpi_costs (df : SnapDF) : Except String CostsK :=
  match df.service_charge_psm_year with
  | none => Except.error "AttributeError"
  | some sc =>
      Except.ok
        { service_charge_median := median sc
          service_charge_dispersion := svar sc }

/-- Result bundle of `kpi_terrace`. -/
structure TerraceK where
  terrace_rate : Option ℚ
  terrace_size_median : Option ℚ
deriving DecidableEq

/-- `kpi_terrace(df)`: the rate is guarded (`if ht is not None`, plus a
`try/except`), so an absent `has_terrace` column degrades to null; an absent
`terrace_size_sqm` column still hits the scalar-nan `.notna()` and raises. -/
def kpi_terrace (df : SnapDF) : Except String TerraceK :=
  match df.terrace_size_sqm with
  | none => Except.error "AttributeError"
  | some ts =>
      Except.ok
        { terrace_rate :=
            match df.has_terrace with
            | none => none
            | some ht =>
                let bs := ht.filterMap id
                if bs.length = 0 then none
                else some ((bs.countP id : ℚ) / (bs.length : ℚ))
          terrace_size_median := median ts }

/-- `price_consistency_index(df)` (advanced): CV = std/mean of non-null
prices; null when fewer than 10 values or mean <= 0.  The model carries
`var / mean²` (= CV²), with identical nullity. -/
def price_consistency_index (df : SnapDF) : Except String (Option ℚ) :=
  match df.price_per_sqm with
  | none => Except.error "AttributeError"
  | some col =>
      let p := col.filterMap id
      if p.length < 10 then Except.ok none
      else
        let m := p.sum / (p.length : ℚ)
        if m ≤ 0 then Except.ok none
        else Except.ok (((svar col).map (fun v => v / m ^ 2)))

/-- `liquidity_depth_ratio(df)` (advanced): `len(df) / median(DOM)`; null when
the median is null or non-positive. -/
def liquidity_depth_ratio (df : SnapDF) : Except String (Option ℚ) :=
  match df.days_on_market with
  | none => Except.error "AttributeError"
  | some dom =>
      match median dom with
      | none => Except.ok none
      | some m => if m ≤ 0 then Except.ok none else Except.ok (some ((df.nrows : ℚ) / m))

/-- `yield_efficiency_ratio(df)` (advanced): `median(net) / std(price)`; null
when either series has < 10 non-null values or the std is <= 0 (= variance 0).
Variance carried in place of the std. -/
def yield_efficiency_ratio (df : SnapDF) : Except String (Option ℚ) :=
  match df.net_yield, df.price_per_sqm with
  | some nc, some pc =>
      let net := nc.filterMap id
      let p := pc.filterMap id
      if net.length < 10 ∨ p.length < 10 then Except.ok none
      else
        match svar pc, median nc with
        | some v, some m => if v ≤ 0 then Except.ok none else Except.ok (some (m / v))
        | _, _ => Except.ok none
  | _, _ => Except.error "AttributeError"

/-- `vacancy_drag_index(df)` (advanced): median of the elementwise
`gross − net` over rows where both are present.  With exactly one of the two
columns absent, the scalar nan broadcasts into an all-nan difference series
(null result, no error); with both absent the scalar difference `nan - nan`
hits `.dropna()` and raises. -/
def vacancy_drag_index (df : SnapDF) : Except String (Option ℚ) :=
  match df.gross_yield, df.net_yield with
  | some g, some n => Except.ok (median (List.zipWith subOpt g n))
  | none, none => Except.error "AttributeError"
  | _, _ => Except.ok none

/-- `cost_to_yield_ratio(df)` (advanced): `median(sc) / |median(net)|`; null
when either series has < 10 non-null values or the net median is 0. -/
def cost_to_yield_ratio (df : SnapDF) : Except String (Option ℚ) :=
  match df.service_charge_psm_year, df.net_yield with
  | some scc, some nc =>
      let sc := scc.filterMap id
      let net := nc.filterMap id
      if sc.length < 10 ∨ net.length < 10 then Except.ok none
      else
        match median nc, median scc with
        | some nm, some sm =>
            if nm = 0 then Except.ok none else Except.ok (some (sm / |nm|))
        | _, _ => Except.ok none
  | _, _ => Except.error "AttributeError"

/-- The snapshot bundle (`market_views.snapshot`). -/
structure Snapshot where
  n_obs : ℕ
  pricing : PricingK
  liquidity : LiquidityK
  yields : YieldK
  costs : CostsK
  terrace : TerraceK
  price_consistency_cv : Option ℚ
  liq_depth_ratio : Option ℚ
  yield_eff_ratio : Option ℚ
  vac_drag_index : Option ℚ
  cost_yield_ratio : Option ℚ
deriving DecidableEq

/-- `snapshot(df)` from `src/analytics/market_views.py`: the KPI blocks are
evaluated in the order of the dict literal and the subsequent `update`, so the
first raising block determines the error. -/
def snapshot (df : SnapDF) : Except String Snapshot := do
  let pr ← kpi_pricing df
  let liq ← kpi_liquidity df
  let yk ← kpi_yield df
  let ck ← kpi_costs df
  let tk ← kpi_terrace df
  let pci ← price_consistency_index df
  let ldr ← liquidity_depth_ratio df
  let yer ← yield_efficiency_ratio df
  let vdi ← vacancy_drag_index df
  let ctr ← cost_to_yield_ratio df
  Except.ok
    { n_obs := df.nrows
      pricing := pr
      liquidity := liq
      yields := yk
      costs := ck
      terrace := tk
      price_consistency_cv := pci
      liq_depth_ratio := ldr
      yield_eff_ratio := yer
      vac_drag_index := vdi
      cost_yield_ratio := ctr }

/-! ## `weighted_median` (`src/analytics/kpi_engine.py`) -/

/-- The eligible rows of `weighted_median`: the mask
`v.notna() & w.notna() & (w > 0)` applied to the aligned value/weight pair
(the two Series share an index, modelled by pairing the lists positionally). -/
def wmEligible (values weights : List (Option ℚ)) : List (ℚ × ℚ) :=
  (values.zip weights).filterMap
    (fun p => match p.1, p.2 with
      | some v, some w => if 0 < w then some (v, w) else none
      | _, _ => none)

/-- Ordering of (value, weight) pairs by value, the key of the stable
`np.argsort(v.values)`. -/
def pairLE (a b : ℚ × ℚ) : Prop := a.1 ≤ b.1

instance : DecidableRel pairLE := fun a b => inferInstanceAs (Decidable (a.1 ≤ b.1))

instance : IsTotal (ℚ × ℚ) pairLE := ⟨fun a b => le_total a.1 b.1⟩

instance : IsTrans (ℚ × ℚ) pairLE := ⟨fun _ _ _ h h' => le_trans h h'⟩

/-- Scan of the sorted pairs that returns the value at the first index whose
running weight sum reaches `cutoff`; this is exactly
`v_sorted[np.searchsorted(csum, cutoff)]` (`searchsorted` with the default
`side='left'` returns the first index `i` with `csum[i] >= cutoff`). -/
def firstReach (cutoff : ℚ) (acc : ℚ) : List (ℚ × ℚ) → Option ℚ
  | [] => none
  | (v, w) :: t => if cutoff ≤ acc + w then some v else firstReach cutoff (acc + w) t

/-- `weighted_median(values, weights)` from `src/analytics/kpi_engine.py`:
keep rows with non-null value, non-null weight and positive weight; NaN if none
remain; otherwise sort by value (stable), accumulate weights, and return the
value at the first position where the cumulative weight reaches half the total
weight. -/
def weighted_median (values weights : List (Option ℚ)) : Option ℚ :=
  let vw := wmEligible values weights
  if vw.isEmpty then none
  else
    let s := vw.insertionSort pairLE
    firstReach ((s.map Prod.snd).sum / 2) 0 s

/-- Modelled from the spec's words (§4.2): the cumulative-weight method stated
as "sort by value ascending, take the value at which the running weight sum
first reaches half the total weight", with the running sum expressed by prefix
sums over positions — the definition `weighted_median` is compared against. -/
def weighted_median_spec (values weights : List (Option ℚ)) : Option ℚ :=
  let vw := wmEligible values weights
  if vw.isEmpty then none
  else
    let s := vw.insertionSort pairLE
    let total := (s.map Prod.snd).sum
    ((List.range s.length).find?
        (fun i => total / 2 ≤ ((s.take (i + 1)).map Prod.snd).sum)).map
      (fun i => (s.getD i (0, 0)).1)

/-! ## `group_stats` (`src/analytics/aggregations.py`)

Modelled for a single grouping column and no weight column (the shape the
claim exercises); the group and value columns are taken to be present (the
missing-column early-return is not the subject of any claim).  After
`dropna(subset=[group, value])` every kept row has both fields, groups are
iterated in sorted key order (pandas `groupby`), and a group's row is emitted
only when its non-null value count reaches `min_n`.  When *no* group qualifies
but the dropped table was non-empty, the source builds `pd.DataFrame([])` —
a frame with no columns — and `out.sort_values("n", ascending=False)` raises
`KeyError: 'n'`; the `Except.error` case models exactly that raise. -/

/-- One input row of the table handed to `group_stats`. -/
structure GRowIn where
  g : Option ℕ
  v : Option ℚ
deriving DecidableEq

/-- One output row of `group_stats`: group key, count, quantiles, mean and
dispersion (variance carried for `std`, see the module comment). -/
structure GRowOut where
  g : ℕ
  n : ℕ
  q10 : Option ℚ
  q25 : Option ℚ
  q50 : Option ℚ
  q75 : Option ℚ
  q90 : Option ℚ
  mean : ℚ
  var : Option ℚ
deriving DecidableEq

/-- `group_stats(df, "g", "v", min_n)` from `src/analytics/aggregations.py`. -/
def group_stats (t : List GRowIn) (min_n : ℕ) : Except String (List GRowOut) :=
  let d : List (ℕ × ℚ) :=
    t.filterMap (fun r => match r.g, r.v with
      | some g, some v => some (g, v)
      | _, _ => none)
  if d.isEmpty then Except.ok []
  else
    let keys := ((d.map Prod.fst).dedup).insertionSort (· ≤ ·)
    let rows : List GRowOut :=
      keys.filterMap (fun k =>
        let vs : List (Option ℚ) :=
          (d.filter (fun p => p.1 = k)).map (fun p => some p.2)
        let n := (vs.filterMap id).length
        if n < min_n then none
        else
          some
            { g := k
              n := n
              q10 := quantile vs (1/10)
              q25 := quantile vs (1/4)
              q50 := quantile vs (1/2)
              q75 := quantile vs (3/4)
              q90 := quantile vs (9/10)
              mean := (vs.filterMap id).sum / (n : ℚ)
              var := svar vs })
    if rows.isEmpty then Except.error "KeyError: n"
    else Except.ok (rows.insertionSort (fun a b => b.n ≤ a.n))

/-! ## Percentile scoring (`src/analytics/scoring_pdf_only.py`)

`barzel_score_pdf_only` and `barzel_score_details` read the columns
`price_per_sqm`, `days_on_market`, `net_yield`, `vacancy_days`, `first_seen`
and `district`.  The embedding models the first four and `district` as
always-present nullable columns of the row list (both functions are only ever
called on fact tables, which carry them; an absent column would hit the same
scalar-nan raise as in `snapshot` and is not the subject of these claims), and
keeps an explicit presence flag for `first_seen`, which the code tests with
`"first_seen" in df.columns` before the trend computation.  `first_seen` holds
the calendar-month index of the parsed timestamp (the code buckets timestamps
with `.dt.to_period("M")` before any other use), `district` a district id. -/

/-- One row of a scoring view. -/
structure SRow where
  price_per_sqm : Option ℚ
  days_on_market : Option ℚ
  net_yield : Option ℚ
  vacancy_days : Option ℚ
  first_seen : Option ℤ
  district : Option ℕ
deriving DecidableEq

/-- A scoring DataFrame: rows plus the presence flag of `first_seen`. -/
structure SDF where
  rows : List SRow
  has_first_seen : Bool
deriving DecidableEq

/-- `df.dropna(subset=["first_seen", "price_per_sqm"])`, keeping the two
columns the trend computation uses. -/
def trendRows (rs : List SRow) : List (ℤ × ℚ) :=
  rs.filterMap (fun r =>
    match r.first_seen, r.price_per_sqm with
    | some m, some p => some (m, p)
    | _, _ => none)

/-- `d.groupby("month")["price_per_sqm"].median().sort_index()`: the monthly
medians of price per area, in ascending month order. -/
def monthlyMedianSeq (d : List (ℤ × ℚ)) : List ℚ :=
  (((d.map Prod.fst).dedup).insertionSort (· ≤ ·)).map
    (fun m => (median ((d.filter (fun x => x.1 = m)).map (fun x => some x.2))).getD 0)

/-- The view-trend momentum of `barzel_score_pdf_only`: requires the
`first_seen` column, >= 30 complete rows and >= 6 distinct months, then
computes `(g.iloc[-1] - g.iloc[0]) / g.iloc[0]` — with *no* guard on
`g.iloc[0]`, so a zero first-month median divides by zero and produces an IEEE
infinity (or NaN when the last median is zero too). -/
def trendOfScore (df : SDF) : FV :=
  if df.has_first_seen then
    let d := trendRows df.rows
    if 30 ≤ d.length then
      let g := monthlyMedianSeq d
      if 6 ≤ g.length then fdivF (g.getLastD 0 - g.headI) g.headI else FV.nan
    else FV.nan
  else FV.nan

/-- The view-trend momentum of `barzel_score_details`: identical except for the
additional guard `g.iloc[0] > 0`, which leaves the momentum NaN when the first
month's median is zero (or negative). -/
def trendOfDetails (df : SDF) : FV :=
  if df.has_first_seen then
    let d := trendRows df.rows
    if 30 ≤ d.length then
      let g := monthlyMedianSeq d
      if 6 ≤ g.length ∧ 0 < g.headI then FV.num ((g.getLastD 0 - g.headI) / g.headI)
      else FV.nan
    else FV.nan
  else FV.nan

/-- The sorted distinct non-null districts of a view
(`dropna(subset=["district"]).groupby("district")` iterates them in sorted
order). -/
def districtsOf (rs : List SRow) : List ℕ :=
  ((rs.filterMap (fun r => r.district)).dedup).insertionSort (· ≤ ·)

/-- The rows of one district. -/
def districtRows (rs : List SRow) (k : ℕ) : List SRow :=
  rs.filter (fun r => r.district = some k)

/-- The reference trend distribution (`trend_dist`, identical in both scoring
functions): one momentum per district that has >= 30 complete rows, >= 6
distinct months and a positive first-month median. -/
def trend_dist (df : SDF) : List ℚ :=
  if df.has_first_seen then
    (districtsOf df.rows).filterMap (fun k =>
      let dd := trendRows (districtRows df.rows k)
      if dd.length < 30 then none
      else
        let gg := monthlyMedianSeq dd
        if 6 ≤ gg.length ∧ 0 < gg.headI then some ((gg.getLastD 0 - gg.headI) / gg.headI)
        else none)
  else []

/-- A column of a scoring view, as the list of its cells. -/
def colDom (df : SDF) : List (Option ℚ) := df.rows.map (fun r => r.days_on_market)

/-- `net_yield` column of a scoring view. -/
def colNet (df : SDF) : List (Option ℚ) := df.rows.map (fun r => r.net_yield)

/-- `vacancy_days` column of a scoring view. -/
def colVac (df : SDF) : List (Option ℚ) := df.rows.map (fun r => r.vacancy_days)

/-- `price_per_sqm` column of a scoring view. -/
def colPrice (df : SDF) : List (Option ℚ) := df.rows.map (fun r => r.price_per_sqm)

/-- The view's price dispersion
(`pd.to_numeric(df_view["price_per_sqm"]).std()`), carried as the sample
variance (see the module comment on standard deviations). -/
def vol_view (df : SDF) : Option ℚ := svar (colPrice df)

/-- The reference risk distribution: per-district dispersion of price per area
(`groupby(df_all["district"]).std()`, null districts dropped by `groupby`), a
std per district with at least 2 price values (NaN below that), carried as
variances. -/
def vol_all (df : SDF) : List (Option ℚ) :=
  (districtsOf df.rows).map (fun k => svar (colPrice ⟨districtRows df.rows k, df.has_first_seen⟩))

/-- Liquidity KPI percentile of `score()`: DOM median of the view against the
market DOM distribution, lower is better. -/
def s_dom (df_all df_view : SDF) : Option ℚ :=
  percentile_score (colDom df_all) (FV.ofOpt (median (colDom df_view))) false

/-- Yield KPI percentile of `score()`: net-yield median, higher is better. -/
def s_yield (df_all df_view : SDF) : Option ℚ :=
  percentile_score (colNet df_all) (FV.ofOpt (median (colNet df_view))) true

/-- Risk KPI percentile of `score()`: view price dispersion against the
per-district dispersion distribution, lower is better. -/
def s_risk (df_all df_view : SDF) : Option ℚ :=
  percentile_score (vol_all df_all) (FV.ofOpt (vol_view df_view)) false

/-- Trend KPI percentile of `score()`: the unguarded view momentum against the
per-district momentum distribution; NaN when the reference list is empty
(`... if len(trend_dist) else np.nan`). -/
def s_trend (df_all df_view : SDF) : Option ℚ :=
  if (trend_dist df_all).isEmpty then none
  else percentile_score ((trend_dist df_all).map some) (trendOfScore df_view) true

/-- Vacancy KPI percentile of `score()`: vacancy-days median, lower is
better. -/
def s_vac (df_all df_view : SDF) : Option ℚ :=
  percentile_score (colVac df_all) (FV.ofOpt (median (colVac df_view))) false

/-- The result dict of `barzel_score_pdf_only`: four nullable pillar scores and
the total. -/
structure ScoreOut where
  Liquidity : Option ℚ
  Yield : Option ℚ
  Risk : Option ℚ
  Trend : Option ℚ
  Total : ℚ
deriving DecidableEq

/-- `barzel_score_pdf_only(df_all, df_view)`: Liquidity = 25·nanmean of the DOM
and vacancy percentiles, Yield/Risk/Trend = 25·their percentile, Total =
`np.nansum` of the four pillars (a NaN pillar contributes nothing; all-NaN
sums to 0.0). -/
def barzel_score_pdf_only (df_all df_view : SDF) : ScoreOut :=
  let liquidity := (nanmean [s_dom df_all df_view, s_vac df_all df_view]).map (25 * ·)
  let yield_p := (s_yield df_all df_view).map (25 * ·)
  let risk_p := (s_risk df_all df_view).map (25 * ·)
  let trend_p := (s_trend df_all df_view).map (25 * ·)
  { Liquidity := liquidity
    Yield := yield_p
    Risk := risk_p
    Trend := trend_p
    Total := nansum [liquidity, yield_p, risk_p, trend_p] }

/-- The parts of the `barzel_score_details` result the claims read: the per-KPI
percentiles (`pct` of each row), the per-KPI points, and the totals. -/
structure DetailsOut where
  pct_dom : Option ℚ
  pct_vac : Option ℚ
  pct_yield : Option ℚ
  pct_risk : Option ℚ
  pct_trend : Option ℚ
  pts_dom : Option ℚ
  pts_vac : Option ℚ
  pts_yield : Option ℚ
  pts_risk : Option ℚ
  pts_trend : Option ℚ
  Liquidity : Option ℚ
  Total : ℚ
deriving DecidableEq

/-- `barzel_score_details(df_all, df_view)`: identical percentile computations
except that its view-trend momentum is `trendOfDetails` (guarded against a
non-positive first month); points are `25·pct` (`... if pct == pct else nan`
models NaN propagation), the Liquidity pillar is the nanmean of the two
liquidity point values, and Total is the nansum of the pillars. -/
def barzel_score_details (df_all df_view : SDF) : DetailsOut :=
  let pct_dom := percentile_score (colDom df_all) (FV.ofOpt (median (colDom df_view))) false
  let pct_yield := percentile_score (colNet df_all) (FV.ofOpt (median (colNet df_view))) true
  let pct_risk := percentile_score (vol_all df_all) (FV.ofOpt (vol_view df_view)) false
  let pct_trend :=
    if (trend_dist df_all).isEmpty then none
    else percentile_score ((trend_dist df_all).map some) (trendOfDetails df_view) true
  let pct_vac := percentile_score (colVac df_all) (FV.ofOpt (median (colVac df_view))) false
  let pts_dom := pct_dom.map (25 * ·)
  let pts_vac := pct_vac.map (25 * ·)
  let liquidity := nanmean [pts_dom, pts_vac]
  let yield_p := pct_yield.map (25 * ·)
  let risk_p := pct_risk.map (25 * ·)
  let trend_p := pct_trend.map (25 * ·)
  { pct_dom := pct_dom
    pct_vac := pct_vac
    pct_yield := pct_yield
    pct_risk := pct_risk
    pct_trend := pct_trend
    pts_dom := pts_dom
    pts_vac := pts_vac
    pts_yield := yield_p
    pts_risk := risk_p
    pts_trend := trend_p
    Liquidity := liquidity
    Total := nansum [liquidity, yield_p, risk_p, trend_p] }

/-! ## Theorems -/

/-- A non-null guardrail output lies within the bounds. -/
theorem bnd_some {lo hi : ℚ} {o : Option ℚ} {q : ℚ} (h : bnd lo hi o = some q) :
    lo ≤ q ∧ q ≤ hi := by
  cases o with
  | none => simp [bnd] at h
  | some x =>
      simp only [bnd] at h
      split at h
      · exact absurd h (by simp)
      · next hc =>
          rw [not_or] at hc
          cases h
          exact ⟨le_of_not_lt hc.1, le_of_not_lt hc.2⟩

/-- An out-of-bounds guardrail input is nulled (never clamped). -/
theorem bnd_oob {lo hi x : ℚ} (h : x < lo ∨ hi < x) : bnd lo hi (some x) = none := by
  unfold bnd
  exact if_pos h

/-- Claim C2: in every fact table returned by `add_facts`, each non-null value
of the six bounded canonical fields lies within its declared sanity bounds,
and each row arises from a raw row whose out-of-bounds derived values were
nulled rather than clamped. -/
theorem add_facts_sanity_bounds (t : RawTable) (now : ℤ) (fr : FactRow)
    (hfr : fr ∈ add_facts t now) :
    (∀ q, fr.price_per_sqm = some q → 2000 ≤ q ∧ q ≤ 400000) ∧
    (∀ q, fr.days_on_market = some q → 0 ≤ q ∧ q ≤ 3650) ∧
    (∀ q, fr.net_yield = some q → -5 ≤ q ∧ q ≤ 40) ∧
    (∀ q, fr.gross_yield = some q → -5 ≤ q ∧ q ≤ 40) ∧
    (∀ q, fr.service_charge_psm_year = some q → 0 ≤ q ∧ q ≤ 100000) ∧
    (∀ q, fr.vacancy_days = some q → 0 ≤ q ∧ q ≤ 3650) ∧
    (∃ r ∈ t.rows, fr = factRow (mkFlags t) t.has_terrace_col now r ∧
      (∀ x, pricePre (mkFlags t) r = some x → x < 2000 ∨ 400000 < x →
        fr.price_per_sqm = none) ∧
      (∀ x, domPre (mkFlags t) now r = some x → x < 0 ∨ 3650 < x →
        fr.days_on_market = none) ∧
      (∀ x, netPre (mkFlags t) r = some x → x < -5 ∨ 40 < x → fr.net_yield = none)) := by
  obtain ⟨r, hr, rfl⟩ := List.mem_map.1 hfr
  refine ⟨fun q h => bnd_some h, fun q h => bnd_some h, fun q h => bnd_some h,
    fun q h => bnd_some h, fun q h => bnd_some h, fun q h => bnd_some h,
    r, hr, rfl, ?_, ?_, ?_⟩
  · intro x hx hoob
    show bnd 2000 400000 (pricePre (mkFlags t) r) = none
    rw [hx]
    exact bnd_oob hoob
  · intro x hx hoob
    show bnd 0 3650 (domPre (mkFlags t) now r) = none
    rw [hx]
    exact bnd_oob hoob
  · intro x hx hoob
    show bnd (-5) 40 (netPre (mkFlags t) r) = none
    rw [hx]
    exact bnd_oob hoob

/-- A raw row with every source populated, the price out of bounds
(500000 > 400000) and the vacancy estimate out of bounds (-1 < 0). -/
def rawRowW : RawRow :=
  { RawRow.empty with
      price_per_sqm_aed := some 500000
      days_on_market := some 12
      net_yield_est_pct := some 5
      gross_yield_pct := some 6
      service_charge_aed_per_sqm_year := some 10
      vacancy_days_est := some (-1) }

/-- One-row raw table exercising the guardrails. -/
def rawTableW : RawTable := ⟨[rawRowW], false⟩

/-- Witness for C2: the bounds theorem applied to a concrete table whose fact
row keeps the in-bounds DOM value and nulls the out-of-bounds price. -/
theorem add_facts_sanity_bounds_witness :
    (0 ≤ (12 : ℚ) ∧ (12 : ℚ) ≤ 3650) ∧
    ∃ r ∈ rawTableW.rows,
      factRow (mkFlags rawTableW) rawTableW.has_terrace_col 0 rawRowW =
        factRow (mkFlags rawTableW) rawTableW.has_terrace_col 0 r ∧
      (∀ x, pricePre (mkFlags rawTableW) r = some x → x < 2000 ∨ 400000 < x →
        (factRow (mkFlags rawTableW) rawTableW.has_terrace_col 0 rawRowW).price_per_sqm =
          none) ∧
      (∀ x, domPre (mkFlags rawTableW) 0 r = some x → x < 0 ∨ 3650 < x →
        (factRow (mkFlags rawTableW) rawTableW.has_terrace_col 0 rawRowW).days_on_market =
          none) ∧
      (∀ x, netPre (mkFlags rawTableW) r = some x → x < -5 ∨ 40 < x →
        (factRow (mkFlags rawTableW) rawTableW.has_terrace_col 0 rawRowW).net_yield =
          none) := by
  have h := add_facts_sanity_bounds rawTableW 0
    (factRow (mkFlags rawTableW) rawTableW.has_terrace_col 0 rawRowW) (by decide)
  exact ⟨h.2.1 12 (by decide), h.2.2.2.2.2.2⟩

/-- A raw row with no usable `days_on_market` value, a `first_seen`
timestamp and a null `last_seen`: the fallback is `now − first_seen`, so the
output depends on the run time.  Every other source group is populated so that
the source completes (see the facts-model comment). -/
def rawRowClock : RawRow :=
  { RawRow.empty with
      price_per_sqm_aed := some 3000
      net_yield_est_pct := some 5
      gross_yield_pct := some 6
      service_charge_aed_per_sqm_year := some 10
      vacancy_days_est := some 3
      first_seen := some 0
      last_seen := none }

/-- One-row raw table exercising the clock-dependent fallback. -/
def rawTableClock : RawTable := ⟨[rawRowClock], false⟩

/-- Counterexample to claim C4 as stated: `add_facts` read the clock
(`pd.Timestamp.utcnow()`), and on a table whose `days_on_market` must be
derived from `first_seen` with a null `last_seen`, two runs at different times
(day 100 vs day 200) return different fact tables — `days_on_market` is 100
in one and 200 in the other. -/
theorem add_facts_clock_dependent : add_facts rawTableClock 100 ≠ add_facts rawTableClock 200 := by
  decide

/-- Claim C4 (amended): `add_facts` is a deterministic function of the raw
table *and the run timestamp*; moreover the timestamp is only consulted by the
`days_on_market` fallback, so whenever the raw table has a usable
`days_on_market` column (at least one non-null value) the output is completely
independent of when the run happens. -/
theorem add_facts_deterministic (t : RawTable) (n1 n2 : ℤ)
    (h : t.rows.any (fun r => r.days_on_market.isSome) = true) :
    add_facts t n1 = add_facts t n2 := by
  unfold add_facts
  apply List.map_congr_left
  intro r _
  have hdom : (mkFlags t).dom = true := h
  simp [factRow, domPre, hdom]

/-- Raw table whose `days_on_market` column is populated. -/
def rawTableDom : RawTable := ⟨[{ rawRowClock with days_on_market := some 12 }], false⟩

/-- Witness for the amended C4: with a populated `days_on_market` column, runs
at day 0 and day 500 agree. -/
theorem add_facts_deterministic_witness : add_facts rawTableDom 0 = add_facts rawTableDom 500 :=
  add_facts_deterministic rawTableDom 0 500 (by decide)

/-- A raw row whose `has_terrace` cell is null (and all source groups
populated so the source completes). -/
def rawRowTerrace : RawRow :=
  { RawRow.empty with
      price_per_sqm_aed := some 3000
      days_on_market := some 5
      net_yield_est_pct := some 5
      gross_yield_pct := some 6
      service_charge_aed_per_sqm_year := some 10
      vacancy_days_est := some 3
      has_terrace := none }

/-- One-row raw table with a present `has_terrace` column holding a null. -/
def rawTableTerrace : RawTable := ⟨[rawRowTerrace], true⟩

/-- Counterexample to claim C9 as stated: a null raw `has_terrace` cell does
*not* stay null — `astype(str)` renders it as the text `"nan"`, which fails
the `isin` test, so the fact value is `false`. -/
theorem has_terrace_null_becomes_false :
    (add_facts rawTableTerrace 0).map (fun fr => fr.has_terrace) = [some false] := by
  decide

/-- Claim C9 (amended): when the raw table has a `has_terrace` column, every
fact value is a non-null boolean — `true` exactly when the raw text
case-insensitively matches one of "1"/"true"/"yes", and `false` for anything
else *including a null cell*; the fact column is null (per row) only when the
raw column is absent altogether. -/
theorem add_facts_has_terrace (t : RawTable) (now : ℤ) :
    ((add_facts t now).map (fun fr => fr.has_terrace) =
      if t.has_terrace_col then t.rows.map (fun r => some (terraceNorm r.has_terrace))
      else t.rows.map (fun _ => none)) ∧
    terraceNorm none = false ∧
    (∀ s, terraceNorm (some s) = true ↔ s.toLower ∈ ["1", "true", "yes"]) := by
  refine ⟨?_, rfl, fun s => by simp [terraceNorm]⟩
  by_cases hc : t.has_terrace_col
  · rw [if_pos hc]
    unfold add_facts
    rw [List.map_map]
    exact List.map_congr_left (fun r _ => by simp [factRow, hc])
  · rw [if_neg hc]
    unfold add_facts
    rw [List.map_map]
    exact List.map_congr_left (fun r _ => by simp [factRow, hc])

deriving instance DecidableEq for Except

/-- A one-row view whose `price_per_sqm` column is absent and every other
canonical column present. -/
def viewNoPrice : SnapDF :=
  ⟨none, some [some 10], some [some 5], some [some 6], some [some 3], some [some 10],
    some [some true], some [some 20], 1⟩

/-- A one-row view with every canonical column present, `days_on_market` and
the yield columns all-null, and a price value. -/
def viewNullDom : SnapDF :=
  ⟨some [some 3000], some [none], some [none], some [none], some [none], some [none],
    some [none], some [none], 1⟩

/-- Claim C3 evaluated: `snapshot` raises (`AttributeError`, from the
scalar-nan path after `df.get`) as soon as one canonical column is entirely
absent, contrary to the claim; present-but-all-null columns do degrade
per-KPI to null while KPIs with data are computed. -/
theorem snapshot_absent_column_raises :
    snapshot viewNoPrice = Except.error "AttributeError" ∧
    (snapshot viewNullDom).map
        (fun s => (s.pricing.median_price_sqm, s.liquidity.median_dom,
          s.yields.net_yield_median, s.liquidity.fast_sale_ratio_30d)) =
      Except.ok (some 3000, none, none, some 0) := by
  constructor
  · rfl
  · decide

/-- One group of five rows: no group reaches `min_n = 10`. -/
def gTableSmall : List GRowIn := List.replicate 5 ⟨some 0, some 7⟩

/-- A group of exactly 9 rows (key 0) and a group of exactly 10 rows (key 1). -/
def gTableNineTen : List GRowIn :=
  List.replicate 9 ⟨some 0, some 7⟩ ++ List.replicate 10 ⟨some 1, some 7⟩

/-- Claim C8 evaluated: `group_stats` with `min_n = 10` does omit the
9-row group and keep the 10-row group, but when *no* group qualifies it
builds `pd.DataFrame([])` — a frame without columns — and
`sort_values("n")` raises `KeyError` instead of returning an empty result. -/
theorem group_stats_min_n_and_empty_raise :
    group_stats gTableSmall 10 = Except.error "KeyError: n" ∧
    group_stats gTableNineTen 10 =
      Except.ok [⟨1, 10, some 7, some 7, some 7, some 7, some 7, 7, some 0⟩] := by
  constructor
  · decide
  · decide

/-- Claim C10: with a present `days_on_market` column on a non-empty view, the
fast-sale ratios equal the count of rows whose (non-null) DOM is ≤ 30 (resp.
≤ 60) divided by the total number of rows — null DOM rows count in the
denominator as not-fast — so an all-null column yields ratio 0, and only a
zero-row view yields null. -/
theorem kpi_liquidity_fast_ratios (df : SnapDF) (col : List (Option ℚ))
    (h : df.days_on_market = some col) :
    (col ≠ [] → ∃ k, kpi_liquidity df = Except.ok k ∧
      k.fast_sale_ratio_30d =
        some ((col.countP (fun o => leOpt o 30) : ℚ) / (col.length : ℚ)) ∧
      k.fast_sale_ratio_60d =
        some ((col.countP (fun o => leOpt o 60) : ℚ) / (col.length : ℚ))) ∧
    ((∀ o ∈ col, o = none) → col ≠ [] → ∃ k, kpi_liquidity df = Except.ok k ∧
      k.fast_sale_ratio_30d = some 0 ∧ k.fast_sale_ratio_60d = some 0) ∧
    (col = [] → ∃ k, kpi_liquidity df = Except.ok k ∧
      k.fast_sale_ratio_30d = none ∧ k.fast_sale_ratio_60d = none) := by
  simp only [kpi_liquidity, h]
  refine ⟨?_, ?_, ?_⟩
  · intro hne
    have hlen : ¬col.length = 0 := fun h0 => hne (List.length_eq_zero.1 h0)
    refine ⟨_, rfl, ?_, ?_⟩ <;> (dsimp only; rw [if_neg hlen])
  · intro hall hne
    have hlen : ¬col.length = 0 := fun h0 => hne (List.length_eq_zero.1 h0)
    have h30 : col.countP (fun o => leOpt o 30) = 0 :=
      List.countP_eq_zero.2 (fun o ho => by simp [hall o ho, leOpt])
    have h60 : col.countP (fun o => leOpt o 60) = 0 :=
      List.countP_eq_zero.2 (fun o ho => by simp [hall o ho, leOpt])
    refine ⟨_, rfl, ?_, ?_⟩
    · dsimp only
      rw [if_neg hlen, h30]
      norm_num
    · dsimp only
      rw [if_neg hlen, h60]
      norm_num
  · intro he
    subst he
    exact ⟨_, rfl, rfl, rfl⟩

/-- A three-row view: one fast sale (10 days), one null DOM, one slow sale. -/
def viewFast : SnapDF :=
  ⟨none, some [some 10, none, some 50], none, none, none, none, none, none, 3⟩

/-- Witness for C10: the ratio theorem applied to a concrete three-row view
(one DOM of 10 days, one null, one of 50 days). -/
theorem kpi_liquidity_fast_ratios_witness :
    ∃ k, kpi_liquidity viewFast = Except.ok k ∧
      k.fast_sale_ratio_30d =
        some (([some (10 : ℚ), none, some 50].countP (fun o => leOpt o 30) : ℚ) /
          (([some (10 : ℚ), none, some 50] : List (Option ℚ)).length : ℚ)) ∧
      k.fast_sale_ratio_60d =
        some (([some (10 : ℚ), none, some 50].countP (fun o => leOpt o 60) : ℚ) /
          (([some (10 : ℚ), none, some 50] : List (Option ℚ)).length : ℚ)) :=
  (kpi_liquidity_fast_ratios viewFast [some 10, none, some 50] rfl).1 (by decide)

/-- `percentile_score` is null whenever the reference distribution has fewer
than 10 non-null values or the probe value is NaN. -/
theorem percentile_none (series : List (Option ℚ)) (value : FV) (hib : Bool)
    (h : (series.filterMap id).length < 10 ∨ value = FV.nan) :
    percentile_score series value hib = none := by
  simp only [percentile_score]
  rw [if_pos h]

/-- Claim C5: in `score()`, a KPI whose reference distribution has fewer than
10 non-null values or whose subset central value is null has a null
percentile; a pillar whose constituents are all null is null; and the Total is
the `nansum` of the pillars — the sum of exactly the non-null pillar scores. -/
theorem score_null_handling (df_all df_view : SDF) :
    (((colDom df_all).filterMap id).length < 10 ∨ median (colDom df_view) = none →
      s_dom df_all df_view = none) ∧
    (((colNet df_all).filterMap id).length < 10 ∨ median (colNet df_view) = none →
      s_yield df_all df_view = none) ∧
    (((colVac df_all).filterMap id).length < 10 ∨ median (colVac df_view) = none →
      s_vac df_all df_view = none) ∧
    (((vol_all df_all).filterMap id).length < 10 ∨ vol_view df_view = none →
      s_risk df_all df_view = none) ∧
    ((trend_dist df_all).length < 10 ∨ trendOfScore df_view = FV.nan →
      s_trend df_all df_view = none) ∧
    (s_dom df_all df_view = none ∧ s_vac df_all df_view = none →
      (barzel_score_pdf_only df_all df_view).Liquidity = none) ∧
    (s_yield df_all df_view = none → (barzel_score_pdf_only df_all df_view).Yield = none) ∧
    (s_risk df_all df_view = none → (barzel_score_pdf_only df_all df_view).Risk = none) ∧
    (s_trend df_all df_view = none → (barzel_score_pdf_only df_all df_view).Trend = none) ∧
    (barzel_score_pdf_only df_all df_view).Total =
      nansum [(barzel_score_pdf_only df_all df_view).Liquidity,
        (barzel_score_pdf_only df_all df_view).Yield,
        (barzel_score_pdf_only df_all df_view).Risk,
        (barzel_score_pdf_only df_all df_view).Trend] := by
  refine ⟨?_, ?_, ?_, ?_, ?_, ?_, ?_, ?_, ?_, rfl⟩
  · rintro (h | h)
    · exact percentile_none _ _ _ (Or.inl h)
    · exact percentile_none _ _ _ (Or.inr (by rw [h]; rfl))
  · rintro (h | h)
    · exact percentile_none _ _ _ (Or.inl h)
    · exact percentile_none _ _ _ (Or.inr (by rw [h]; rfl))
  · rintro (h | h)
    · exact percentile_none _ _ _ (Or.inl h)
    · exact percentile_none _ _ _ (Or.inr (by rw [h]; rfl))
  · rintro (h | h)
    · exact percentile_none _ _ _ (Or.inl h)
    · exact percentile_none _ _ _ (Or.inr (by rw [h]; rfl))
  · intro h
    unfold s_trend
    split
    · rfl
    · refine percentile_none _ _ _ ?_
      rcases h with h | h
      · exact Or.inl (by simpa using h)
      · exact Or.inr (by rw [h])
  · rintro ⟨h1, h2⟩
    dsimp only [barzel_score_pdf_only]
    rw [h1, h2]
    rfl
  · intro h1
    dsimp only [barzel_score_pdf_only]
    rw [h1]
    rfl
  · intro h1
    dsimp only [barzel_score_pdf_only]
    rw [h1]
    rfl
  · intro h1
    dsimp only [barzel_score_pdf_only]
    rw [h1]
    rfl

/-- An empty market and view (every reference distribution empty, every
central value null). -/
def sdfEmpty : SDF := ⟨[], true⟩

/-- Witness for C5: on the empty market/view pair every KPI percentile is
null, the Liquidity pillar is null, and the Total is the empty nansum. -/
theorem score_null_handling_witness :
    s_dom sdfEmpty sdfEmpty = none ∧
    (barzel_score_pdf_only sdfEmpty sdfEmpty).Liquidity = none ∧
    (barzel_score_pdf_only sdfEmpty sdfEmpty).Total =
      nansum [(barzel_score_pdf_only sdfEmpty sdfEmpty).Liquidity,
        (barzel_score_pdf_only sdfEmpty sdfEmpty).Yield,
        (barzel_score_pdf_only sdfEmpty sdfEmpty).Risk,
        (barzel_score_pdf_only sdfEmpty sdfEmpty).Trend] := by
  have h := score_null_handling sdfEmpty sdfEmpty
  exact ⟨h.1 (Or.inl (by decide)),
    h.2.2.2.2.2.1 ⟨h.1 (Or.inl (by decide)), h.2.2.1 (Or.inl (by decide))⟩,
    h.2.2.2.2.2.2.2.2.2⟩

/-- Claim C6: `percentile_score` is monotone for a higher-is-better KPI — with
a fixed reference distribution of at least 10 non-null values, a larger probe
value never gets a smaller percentile. -/
theorem percentile_monotone (series : List (Option ℚ)) (v1 v2 : ℚ)
    (hlen : 10 ≤ (series.filterMap id).length) (hv : v1 ≤ v2) :
    ∃ p1 p2, percentile_score series (FV.num v1) true = some p1 ∧
      percentile_score series (FV.num v2) true = some p2 ∧ p1 ≤ p2 := by
  have hc1 : ¬((series.filterMap id).length < 10 ∨ FV.num v1 = FV.nan) := by
    rintro (h | h)
    · exact absurd hlen (Nat.not_le.2 h)
    · exact FV.noConfusion h
  have hc2 : ¬((series.filterMap id).length < 10 ∨ FV.num v2 = FV.nan) := by
    rintro (h | h)
    · exact absurd hlen (Nat.not_le.2 h)
    · exact FV.noConfusion h
  simp only [percentile_score]
  rw [if_neg hc1, if_neg hc2]
  refine ⟨_, _, rfl, rfl, ?_⟩
  have hcount : (series.filterMap id).countP (fun x => fleF x (FV.num v1)) ≤
      (series.filterMap id).countP (fun x => fleF x (FV.num v2)) := by
    refine List.countP_mono_left (fun a _ ha => ?_)
    have h1 : a ≤ v1 := by simpa [fleF] using ha
    simpa [fleF] using le_trans h1 hv
  have hpos : (0 : ℚ) < ((series.filterMap id).length : ℚ) := by
    have : 0 < (series.filterMap id).length := lt_of_lt_of_le (by norm_num) hlen
    exact_mod_cast this
  have hdiv : ((series.filterMap id).countP (fun x => fleF x (FV.num v1)) : ℚ) /
      ((series.filterMap id).length : ℚ) ≤
      ((series.filterMap id).countP (fun x => fleF x (FV.num v2)) : ℚ) /
      ((series.filterMap id).length : ℚ) :=
    (div_le_div_iff_of_pos_right hpos).2 (by exact_mod_cast hcount)
  exact max_le_max (le_refl 0) (min_le_min (le_refl 1) (by simpa using hdiv))

/-- A ten-value reference distribution 0..9. -/
def refTen : List (Option ℚ) := (List.range 10).map (fun i => some (i : ℚ))

/-- Witness for C6: the monotonicity theorem applied to the 0..9 reference
distribution and probes 2 ≤ 7. -/
theorem percentile_monotone_witness :
    ∃ p1 p2, percentile_score refTen (FV.num 2) true = some p1 ∧
      percentile_score refTen (FV.num 7) true = some p2 ∧ p1 ≤ p2 :=
  percentile_monotone refTen 2 7 (by decide) (by decide)

/-- Total weight of a pair list. -/
def totalW (l : List (ℚ × ℚ)) : ℚ := (l.map Prod.snd).sum

/-- Cumulative weight of the pairs whose value is at most `v`. -/
def weightLE (l : List (ℚ × ℚ)) (v : ℚ) : ℚ :=
  ((l.filter (fun p => p.1 ≤ v)).map Prod.snd).sum

theorem weightLE_cons (v w u : ℚ) (t : List (ℚ × ℚ)) :
    weightLE ((v, w) :: t) u = (if v ≤ u then w else 0) + weightLE t u := by
  simp only [weightLE, List.filter_cons]
  by_cases h : v ≤ u
  · simp [h]
  · simp [h]

theorem weightLE_nonneg {l : List (ℚ × ℚ)} (hw : ∀ p ∈ l, 0 < p.2) (v : ℚ) :
    0 ≤ weightLE l v := by
  refine List.sum_nonneg (fun x hx => ?_)
  obtain ⟨p, hp, rfl⟩ := List.mem_map.1 hx
  exact le_of_lt (hw p (List.mem_of_mem_filter hp))

theorem exists_of_weightLE_pos {l : List (ℚ × ℚ)} {v : ℚ} (h : 0 < weightLE l v) :
    ∃ p ∈ l, p.1 ≤ v := by
  by_contra hno
  push_neg at hno
  have : l.filter (fun p => p.1 ≤ v) = [] :=
    List.filter_eq_nil_iff.2 (fun p hp => by simpa using hno p hp)
  rw [weightLE, this] at h
  simp at h

theorem totalW_perm {l l' : List (ℚ × ℚ)} (h : l.Perm l') : totalW l = totalW l' :=
  (h.map Prod.snd).sum_eq

theorem weightLE_perm {l l' : List (ℚ × ℚ)} (h : l.Perm l') (v : ℚ) :
    weightLE l v = weightLE l' v :=
  ((h.filter _).map Prod.snd).sum_eq

theorem totalW_pos {l : List (ℚ × ℚ)} (hw : ∀ p ∈ l, 0 < p.2) (hne : l ≠ []) :
    0 < totalW l := by
  cases l with
  | nil => exact absurd rfl hne
  | cons x t =>
      have h1 : 0 < x.2 := hw x (List.mem_cons_self _ _)
      have h2 : 0 ≤ (t.map Prod.snd).sum :=
        List.sum_nonneg (fun y hy => by
          obtain ⟨p, hp, rfl⟩ := List.mem_map.1 hy
          exact le_of_lt (hw p (List.mem_cons_of_mem _ hp)))
      simp only [totalW, List.map_cons, List.sum_cons]
      linarith

/-- Shifting the accumulator of the cumulative scan into the cutoff. -/
theorem firstReach_shift (s : List (ℚ × ℚ)) :
    ∀ c acc, firstReach c acc s = firstReach (c - acc) 0 s := by
  induction s with
  | nil => intro c acc; rfl
  | cons hd t ih =>
      intro c acc
      obtain ⟨v, w⟩ := hd
      simp only [firstReach, zero_add]
      by_cases hc : c ≤ acc + w
      · rw [if_pos hc, if_pos (by linarith)]
      · rw [if_neg hc, if_neg (by intro h; exact hc (by linarith)), ih c (acc + w),
          ih (c - acc) w]
        congr 1
        ring

/-- Characterization of the cumulative scan on a sorted positive-weight list:
it returns the least value whose cumulative weight reaches the cutoff. -/
theorem firstReach_char :
    ∀ (s : List (ℚ × ℚ)) (c : ℚ), s.Sorted pairLE → (∀ p ∈ s, 0 < p.2) → 0 < c →
      c ≤ totalW s →
      ∃ r, firstReach c 0 s = some r ∧ r ∈ s.map Prod.fst ∧ c ≤ weightLE s r ∧
        ∀ u ∈ s.map Prod.fst, c ≤ weightLE s u → r ≤ u := by
  intro s
  induction s with
  | nil =>
      intro c _ _ hc0 hct
      exact absurd (lt_of_lt_of_le hc0 hct) (by simp [totalW])
  | cons hd t ih =>
      intro c hs hw hc0 hct
      obtain ⟨v, w⟩ := hd
      rw [List.sorted_cons] at hs
      obtain ⟨hvle, hst⟩ := hs
      have hw0 : 0 < w := hw (v, w) (List.mem_cons_self _ _)
      have hwt : ∀ p ∈ t, 0 < p.2 := fun p hp => hw p (List.mem_cons_of_mem _ hp)
      by_cases hcw : c ≤ w
      · refine ⟨v, ?_, by simp, ?_, ?_⟩
        · simp only [firstReach, zero_add]
          rw [if_pos hcw]
        · rw [weightLE_cons, if_pos (le_refl v)]
          have := weightLE_nonneg hwt v
          linarith
        · intro u hu _
          rw [List.map_cons] at hu
          rcases List.mem_cons.1 hu with h | h
          · exact le_of_eq h.symm
          · obtain ⟨p, hp, rfl⟩ := List.mem_map.1 h
            exact hvle p hp
      · have hstep : firstReach c 0 ((v, w) :: t) = firstReach (c - w) 0 t := by
          simp only [firstReach, zero_add]
          rw [if_neg hcw]
          exact firstReach_shift t c w
        have htot : totalW ((v, w) :: t) = w + totalW t := by simp [totalW]
        obtain ⟨r, hr1, hr2, hr3, hr4⟩ :=
          ih (c - w) hst hwt (by linarith) (by rw [htot] at hct; linarith)
        obtain ⟨p0, hp0, hp0r⟩ := List.mem_map.1 hr2
        have hvr : v ≤ r := hp0r ▸ hvle p0 hp0
        refine ⟨r, by rw [hstep]; exact hr1, ?_, ?_, ?_⟩
        · simp only [List.map_cons]
          exact List.mem_cons_of_mem _ hr2
        · rw [weightLE_cons, if_pos hvr]
          linarith
        · intro u hu hle
          rw [List.map_cons] at hu
          rcases List.mem_cons.1 hu with h | h
          · rw [h] at hle ⊢
            rw [weightLE_cons, if_pos (le_refl v)] at hle
            have h2 : c - w ≤ weightLE t v := by linarith
            have h3 : 0 < weightLE t v := lt_of_lt_of_le (by linarith) h2
            obtain ⟨p, hp, hpu⟩ := exists_of_weightLE_pos h3
            have hpv : p.1 = v := le_antisymm hpu (hvle p hp)
            exact hr4 v (List.mem_map.2 ⟨p, hp, hpv⟩) h2
          · have hvu : v ≤ u := by
              obtain ⟨p, hp, rfl⟩ := List.mem_map.1 h
              exact hvle p hp
            rw [weightLE_cons, if_pos hvu] at hle
            exact hr4 u h (by linarith)

/-- The eligible pairs all have positive weight. -/
theorem wmEligible_pos (values weights : List (Option ℚ)) :
    ∀ p ∈ wmEligible values weights, 0 < p.2 := by
  intro p hp
  obtain ⟨a, _, hfa⟩ := List.mem_filterMap.1 hp
  obtain ⟨ov, ow⟩ := a
  cases ov with
  | none => simp at hfa
  | some v =>
      cases ow with
      | none => simp at hfa
      | some w =>
          simp only at hfa
          split at hfa
          · cases hfa
            assumption
          · cases hfa

/-- The zip of the two projections restores the pair list. -/
theorem zip_map_fst_snd {α β : Type} (l : List (α × β)) :
    (l.map Prod.fst).zip (l.map Prod.snd) = l := by
  induction l with
  | nil => rfl
  | cons hd t ih => simp [ih]

/-- The cumulative scan, written as a search over positions and prefix sums
(the shape of the spec's description). -/
theorem firstReach_eq_find :
    ∀ (s : List (ℚ × ℚ)) (c : ℚ),
      firstReach c 0 s =
        ((List.range s.length).find?
            (fun i => c ≤ ((s.take (i + 1)).map Prod.snd).sum)).map
          (fun i => (s.getD i (0, 0)).1) := by
  intro s
  induction s with
  | nil => intro c; rfl
  | cons hd t ih =>
      intro c
      obtain ⟨v, w⟩ := hd
      have hsum0 : ((((v, w) :: t).take (0 + 1)).map Prod.snd).sum = w := by simp
      by_cases hcw : c ≤ w
      · rw [List.length_cons, List.range_succ_eq_map,
          List.find?_cons_of_pos _ (by simp [hsum0, hcw])]
        simp only [firstReach, zero_add]
        rw [if_pos hcw]
        rfl
      · rw [List.length_cons, List.range_succ_eq_map,
          List.find?_cons_of_neg _ (by simp [hsum0, hcw])]
        simp only [firstReach, zero_add]
        rw [if_neg hcw, firstReach_shift t c w, ih (c - w), List.find?_map]
        have hpred :
            ((fun i => decide (c ≤ ((((v, w) :: t).take (i + 1)).map Prod.snd).sum)) ∘
                Nat.succ) =
              (fun i => decide (c - w ≤ ((t.take (i + 1)).map Prod.snd).sum)) := by
          funext i
          simp only [Function.comp_apply]
          rw [decide_eq_decide]
          have hsum : ((((v, w) :: t).take (Nat.succ i + 1)).map Prod.snd).sum =
              w + ((t.take (i + 1)).map Prod.snd).sum := by
            simp [List.take_succ_cons]
          rw [hsum]
          constructor
          · intro h
            linarith
          · intro h
            linarith
        rw [hpred, Option.map_map]
        rfl

/-- Claim C7: `weighted_median` equals the spec's cumulative-weight definition
(restrict to non-null pairs with positive weight, sort by value, first value
whose running weight reaches half the total; null when nothing is eligible),
and its result is invariant under any reordering of the input rows. -/
theorem weighted_median_props :
    (∀ values weights, weighted_median values weights = weighted_median_spec values weights) ∧
    (∀ p q : List (Option ℚ × Option ℚ), p.Perm q →
      weighted_median (p.map Prod.fst) (p.map Prod.snd) =
        weighted_median (q.map Prod.fst) (q.map Prod.snd)) := by
  constructor
  · intro values weights
    simp only [weighted_median, weighted_median_spec]
    split
    · rfl
    · rw [firstReach_eq_find]
  · intro p q hpq
    have hzp : wmEligible (p.map Prod.fst) (p.map Prod.snd) =
        p.filterMap (fun x => match x.1, x.2 with
          | some v, some w => if 0 < w then some (v, w) else none
          | _, _ => none) := by
      simp only [wmEligible, zip_map_fst_snd]
    have hzq : wmEligible (q.map Prod.fst) (q.map Prod.snd) =
        q.filterMap (fun x => match x.1, x.2 with
          | some v, some w => if 0 < w then some (v, w) else none
          | _, _ => none) := by
      simp only [wmEligible, zip_map_fst_snd]
    have hperm : (wmEligible (p.map Prod.fst) (p.map Prod.snd)).Perm
        (wmEligible (q.map Prod.fst) (q.map Prod.snd)) := by
      rw [hzp, hzq]
      exact hpq.filterMap _
    set l₁ := wmEligible (p.map Prod.fst) (p.map Prod.snd) with hl₁
    set l₂ := wmEligible (q.map Prod.fst) (q.map Prod.snd) with hl₂
    have hwpos₁ : ∀ x ∈ l₁, 0 < x.2 := wmEligible_pos _ _
    have hwpos₂ : ∀ x ∈ l₂, 0 < x.2 := wmEligible_pos _ _
    simp only [weighted_median]
    by_cases hemp : l₁.isEmpty
    · rw [if_pos hemp, if_pos (by
        rw [List.isEmpty_iff] at hemp ⊢
        exact List.Perm.eq_nil (hemp ▸ hperm.symm))]
    · have hemp₂ : ¬l₂.isEmpty := by
        rw [List.isEmpty_iff] at hemp ⊢
        intro h2
        exact hemp (List.Perm.eq_nil (h2 ▸ hperm))
      rw [if_neg hemp, if_neg hemp₂]
      -- both scans return the least value whose cumulative weight reaches
      -- half the (common) total weight
      have hs₁ : (l₁.insertionSort pairLE).Perm l₁ := List.perm_insertionSort pairLE l₁
      have hs₂ : (l₂.insertionSort pairLE).Perm l₂ := List.perm_insertionSort pairLE l₂
      have hsort₁ : (l₁.insertionSort pairLE).Sorted pairLE := List.sorted_insertionSort pairLE l₁
      have hsort₂ : (l₂.insertionSort pairLE).Sorted pairLE := List.sorted_insertionSort pairLE l₂
      have hwp₁ : ∀ x ∈ l₁.insertionSort pairLE, 0 < x.2 := fun x hx => hwpos₁ x (hs₁.mem_iff.1 hx)
      have hwp₂ : ∀ x ∈ l₂.insertionSort pairLE, 0 < x.2 := fun x hx => hwpos₂ x (hs₂.mem_iff.1 hx)
      have htot₁ : totalW (l₁.insertionSort pairLE) = totalW l₁ := totalW_perm hs₁
      have htot₂ : totalW (l₂.insertionSort pairLE) = totalW l₂ := totalW_perm hs₂
      have htoteq : totalW l₁ = totalW l₂ := totalW_perm hperm
      have hW : 0 < totalW l₁ :=
        totalW_pos hwpos₁ (by simpa [List.isEmpty_iff] using hemp)
      show firstReach (totalW (l₁.insertionSort pairLE) / 2) 0 (l₁.insertionSort pairLE) =
        firstReach (totalW (l₂.insertionSort pairLE) / 2) 0 (l₂.insertionSort pairLE)
      have hss : (l₁.insertionSort pairLE).Perm (l₂.insertionSort pairLE) :=
        hs₁.trans (hperm.trans hs₂.symm)
      have hceq : totalW (l₁.insertionSort pairLE) / 2 = totalW (l₂.insertionSort pairLE) / 2 := by
        rw [htot₁, htot₂, htoteq]
      obtain ⟨r₁, ha1, ha2, ha3, ha4⟩ :=
        firstReach_char (l₁.insertionSort pairLE) (totalW (l₁.insertionSort pairLE) / 2)
          hsort₁ hwp₁ (by rw [htot₁]; linarith) (by rw [htot₁]; linarith)
      obtain ⟨r₂, hb1, hb2, hb3, hb4⟩ :=
        firstReach_char (l₂.insertionSort pairLE) (totalW (l₂.insertionSort pairLE) / 2)
          hsort₂ hwp₂ (by rw [htot₂, ← htoteq]; linarith) (by rw [htot₂, ← htoteq]; linarith)
      have hmem21 : r₂ ∈ (l₁.insertionSort pairLE).map Prod.fst :=
        (hss.map Prod.fst).mem_iff.2 hb2
      have hmem12 : r₁ ∈ (l₂.insertionSort pairLE).map Prod.fst :=
        (hss.map Prod.fst).mem_iff.1 ha2
      have hwle : ∀ u, weightLE (l₁.insertionSort pairLE) u =
          weightLE (l₂.insertionSort pairLE) u :=
        fun u => weightLE_perm hss u
      have h12 : r₁ ≤ r₂ := by
        refine ha4 r₂ hmem21 ?_
        rw [hwle r₂, hceq]
        exact hb3
      have h21 : r₂ ≤ r₁ := by
        refine hb4 r₁ hmem12 ?_
        rw [← hceq, ← hwle r₁]
        exact ha3
      rw [ha1, hb1, le_antisymm h12 h21]

/-- A hand-built row fixture (values with distinct weights). -/
def pairsP : List (Option ℚ × Option ℚ) :=
  [(some 1, some 5), (some 3, some 1), (some 2, some 1)]

/-- The same rows reordered. -/
def pairsQ : List (Option ℚ × Option ℚ) :=
  [(some 2, some 1), (some 1, some 5), (some 3, some 1)]

/-- Witness for C7: the equality/invariance theorem applied to the concrete
fixture and one reordering of it. -/
theorem weighted_median_props_witness :
    weighted_median (pairsP.map Prod.fst) (pairsP.map Prod.snd) =
      weighted_median (pairsQ.map Prod.fst) (pairsQ.map Prod.snd) ∧
    weighted_median [some 1, some 3, some 2] [some 5, some 1, some 1] =
      weighted_median_spec [some 1, some 3, some 2] [some 5, some 1, some 1] :=
  ⟨weighted_median_props.2 pairsP pairsQ (by decide), weighted_median_props.1 _ _⟩

/-- A 30-row view over 6 months (5 rows per month) whose first-month median
price is exactly 0 and whose later months have price 100. -/
def viewZeroFirstMonth : SDF :=
  ⟨(List.range 6).flatMap (fun m => List.replicate 5
      ⟨some (if m = 0 then 0 else 100), none, none, none, some (m : ℤ), none⟩), true⟩

/-- A market of 10 districts, each with 30 rows over 6 months and a positive
momentum of 1/2, so the trend reference distribution has 10 entries. -/
def marketTenDistricts : SDF :=
  ⟨(List.range 10).flatMap (fun d => (List.range 6).flatMap (fun m =>
      List.replicate 5 ⟨some (10 + (m : ℚ)), none, none, none, some (m : ℤ), some d⟩)), true⟩

set_option maxRecDepth 1000000 in
/-- Claim C1 evaluated at the divergence point: on a view whose first-month
median price is 0, `barzel_score_pdf_only` divides by zero, gets `inf`, and
scores the trend KPI at percentile 1 (25 points, Total 25), while
`barzel_score_details` — which guards `g.iloc[0] > 0` — leaves the trend
percentile and points null (Total 0).  The two outputs are not identical. -/
theorem score_vs_details_trend_divergence :
    trendOfScore viewZeroFirstMonth = FV.inf ∧
    trendOfDetails viewZeroFirstMonth = FV.nan ∧
    (barzel_score_pdf_only marketTenDistricts viewZeroFirstMonth).Trend = some 25 ∧
    (barzel_score_details marketTenDistricts viewZeroFirstMonth).pct_trend = none ∧
    (barzel_score_details marketTenDistricts viewZeroFirstMonth).pts_trend = none ∧
    (barzel_score_pdf_only marketTenDistricts viewZeroFirstMonth).Total = 25 ∧
    (barzel_score_details marketTenDistricts viewZeroFirstMonth).Total = 0 := by
  refine ⟨by decide, by decide, by decide, by decide, by decide, by decide, by decide⟩

end Barzel
